import Mathlib

/-!
# Verification of the rtga TGA codec core

Shallow embedding of `src/lib.rs` (crate `rtga-rust`): the TGA header codec,
the image-type/color/bit-depth validation matrix, image construction,
file decoding/encoding, and pixel mutation.

Conventions of the embedding:
* Rust byte buffers (`Box<[u8]>`, `Vec<u8>`) are `List Nat`, each element a
  byte value (theorems carry `< 256` bounds where the Rust types guarantee
  them).
* Rust `u16` arithmetic in `set_pixel` wraps modulo 2^16 (release-mode
  semantics); the embedding makes the reductions explicit with `% 65536`.
* Fallible Rust functions returning `Result` become `Except TgaError _`.
* An operation that can panic (an out-of-range slice index in
  `copy_from_slice`) returns `Option`, with `none` standing for the panic.
* File I/O is external to the core (per the crate's design): `from_file` and
  `to_file` are embedded as functions on the byte buffer that the I/O layer
  reads or writes (`from_file_bytes`, `to_file_bytes`).
-/

namespace Rtga

/-- The size of a TGA header in bytes (`HEADER_SIZE` in the source). -/
def HEADER_SIZE : Nat := 18

/-- Wrap-around modulus of Rust `u16` arithmetic. -/
def U16MOD : Nat := 65536

/-- `enum TgaError` from the source (the `FileOpen`/`FileRead`/`FileWrite`
variants wrap I/O errors of the external file layer and never arise from the
core byte-level functions embedded here). -/
inductive TgaError where
  | InvalidPixelDepth
  | InvalidImageType
  | InvalidSize
  | InvalidCoordinate
  | InvalidColor
  deriving DecidableEq, Repr

/-- `enum TgaColor`: the four color formats, each carrying its exact byte
payload (`[u8; 1]` .. `[u8; 4]`). -/
inductive TgaColor where
  | Greyscale (b0 : Nat)
  | RGB16 (b0 b1 : Nat)
  | RGB24 (b0 b1 b2 : Nat)
  | RGBA (b0 b1 b2 b3 : Nat)
  deriving DecidableEq, Repr

namespace TgaColor

/-- `TgaColor::as_slice`: the color's raw byte payload. -/
def as_slice : TgaColor → List Nat
  | Greyscale b0 => [b0]
  | RGB16 b0 b1 => [b0, b1]
  | RGB24 b0 b1 b2 => [b0, b1, b2]
  | RGBA b0 b1 b2 b3 => [b0, b1, b2, b3]

/-- `TgaColor::byte_depth`. -/
def byte_depth : TgaColor → Nat
  | Greyscale _ => 1
  | RGB16 _ _ => 2
  | RGB24 _ _ _ => 3
  | RGBA _ _ _ _ => 4

/-- `TgaColor::bit_depth`: `byte_depth * 8`. -/
def bit_depth (c : TgaColor) : Nat := c.byte_depth * 8

end TgaColor

/-- `enum TgaImageType`: the seven recognized image type codes. -/
inductive TgaImageType where
  | NoImage
  | ColorMappedImage
  | TrueColorImage
  | BlackAndWhiteImage
  | RleColorMappedImage
  | RleTrueColorImage
  | RleBlackAndWhiteImage
  deriving DecidableEq, Repr

namespace TgaImageType

/-- The numeric code of an image type (Rust `self.image_type as u8`). -/
def toU8 : TgaImageType → Nat
  | NoImage => 0
  | ColorMappedImage => 1
  | TrueColorImage => 2
  | BlackAndWhiteImage => 3
  | RleColorMappedImage => 9
  | RleTrueColorImage => 10
  | RleBlackAndWhiteImage => 11

/-- `TgaImageType::from_u8`: decode a type byte, `InvalidImageType` on an
unrecognized code. -/
def from_u8 (val : Nat) : Except TgaError TgaImageType :=
  match val with
  | 0 => .ok NoImage
  | 1 => .ok ColorMappedImage
  | 2 => .ok TrueColorImage
  | 3 => .ok BlackAndWhiteImage
  | 9 => .ok RleColorMappedImage
  | 10 => .ok RleTrueColorImage
  | 11 => .ok RleBlackAndWhiteImage
  | _ => .error .InvalidImageType

/-- `TgaImageType::valid_color`: whether `color` is a valid format for the
image type. -/
def valid_color (t : TgaImageType) (color : TgaColor) : Bool :=
  match t with
  | NoImage => false
  | ColorMappedImage | TrueColorImage | RleColorMappedImage | RleTrueColorImage =>
    match color with
    | .Greyscale _ => false
    | _ => true
  | BlackAndWhiteImage | RleBlackAndWhiteImage =>
    match color with
    | .Greyscale _ => true
    | _ => false

/-- `TgaImageType::valid_depth`: whether `bit_depth` is a valid bit depth for
the image type. -/
def valid_depth (t : TgaImageType) (bit_depth : Nat) : Bool :=
  match t with
  | NoImage => bit_depth == 0
  | ColorMappedImage | TrueColorImage | RleColorMappedImage | RleTrueColorImage =>
    bit_depth == 16 || bit_depth == 24 || bit_depth == 32
  | BlackAndWhiteImage | RleBlackAndWhiteImage => bit_depth == 8

end TgaImageType

/-- `enum TgaImageState`. -/
inductive TgaImageState where
  | Uncompressed
  | ColorMapped
  | Rle
  deriving DecidableEq, Repr

/-- `struct TgaHeader`: the typed 18-byte TGA header record.  Fields with
Rust type `u8` or `u16` are `Nat` here; well-formedness bounds are stated
separately (`TgaHeader.WF`). -/
structure TgaHeader where
  id_size : Nat
  has_color_map : Bool
  image_type : TgaImageType
  color_map_first_index : Nat
  color_map_size : Nat
  color_map_bit_depth : Nat
  x_origin : Nat
  y_origin : Nat
  width : Nat
  height : Nat
  image_bit_depth : Nat
  descriptor : Nat
  deriving DecidableEq, Repr

/-- Free function `image_size(width, height, bit_depth)`:
`width * height * (bit_depth / 8)` in `usize` arithmetic (truncating
division). -/
def image_size (width height bit_depth : Nat) : Nat :=
  width * height * (bit_depth / 8)

namespace TgaHeader

/-- `u16::from_le_bytes` on two bytes. -/
def u16_from_le (lo hi : Nat) : Nat := lo + 256 * hi

/-- `TgaHeader::from_buf`: decode the 18 header bytes.  The Rust signature
fixes the buffer at exactly `HEADER_SIZE` bytes; out-of-range reads cannot
occur, so `List.getD` with default `0` is only exercised on real bytes. -/
def from_buf (buf : List Nat) : Except TgaError TgaHeader :=
  match TgaImageType.from_u8 (buf.getD 2 0) with
  | .error e => .error e
  | .ok image_type => .ok {
    id_size := buf.getD 0 0
    has_color_map := buf.getD 1 0 != 0
    image_type := image_type
    color_map_first_index := u16_from_le (buf.getD 3 0) (buf.getD 4 0)
    color_map_size := u16_from_le (buf.getD 5 0) (buf.getD 6 0)
    color_map_bit_depth := buf.getD 7 0
    x_origin := u16_from_le (buf.getD 8 0) (buf.getD 9 0)
    y_origin := u16_from_le (buf.getD 10 0) (buf.getD 11 0)
    width := u16_from_le (buf.getD 12 0) (buf.getD 13 0)
    height := u16_from_le (buf.getD 14 0) (buf.getD 15 0)
    image_bit_depth := buf.getD 16 0
    descriptor := buf.getD 17 0
    }

/-- `TgaHeader::image_size`. -/
def imageSize (h : TgaHeader) : Nat :=
  image_size h.width h.height h.image_bit_depth

/-- `TgaHeader::file_size`: header size plus id, color-map and pixel-data
region sizes. -/
def file_size (h : TgaHeader) : Nat :=
  HEADER_SIZE + h.id_size + h.color_map_size + h.imageSize

/-- `TgaHeader::to_buf`: the 18-byte encoding.  `v as u8 & 0xff` is `v % 256`
and `(v >> 8) as u8` is `v / 256 % 256`. -/
def to_buf (h : TgaHeader) : List Nat :=
  [ h.id_size,
    if h.has_color_map then 1 else 0,
    h.image_type.toU8,
    h.color_map_first_index % 256,
    h.color_map_first_index / 256 % 256,
    h.color_map_size % 256,
    h.color_map_size / 256 % 256,
    h.color_map_bit_depth,
    h.x_origin % 256,
    h.x_origin / 256 % 256,
    h.y_origin % 256,
    h.y_origin / 256 % 256,
    h.width % 256,
    h.width / 256 % 256,
    h.height % 256,
    h.height / 256 % 256,
    h.image_bit_depth,
    h.descriptor ]

/-- Field bounds guaranteed by the Rust field types (`u8` / `u16`). -/
def WF (h : TgaHeader) : Prop :=
  h.id_size < 256 ∧ h.color_map_first_index < 65536 ∧ h.color_map_size < 65536 ∧
  h.color_map_bit_depth < 256 ∧ h.x_origin < 65536 ∧ h.y_origin < 65536 ∧
  h.width < 65536 ∧ h.height < 65536 ∧ h.image_bit_depth < 256 ∧ h.descriptor < 256

instance (h : TgaHeader) : Decidable h.WF := by
  unfold WF; infer_instance

end TgaHeader

/-- `struct TgaImage`: the header plus the three owned byte regions. -/
structure TgaImage where
  header : TgaHeader
  state : TgaImageState
  id : List Nat
  color_map : List Nat
  data : List Nat
  deriving DecidableEq, Repr

namespace TgaImage

/-- `TgaImage::new`: a fresh image with zero-filled pixel data;
`InvalidPixelDepth` when the bit depth is invalid for the image type. -/
def new (image_type : TgaImageType) (width height : Nat) (bit_depth : Nat) :
    Except TgaError TgaImage :=
  if ¬ image_type.valid_depth bit_depth then
    .error .InvalidPixelDepth
  else
    .ok {
      header := {
        id_size := 0
        has_color_map := false
        image_type := image_type
        color_map_first_index := 0
        color_map_size := 0
        color_map_bit_depth := 0
        x_origin := 0
        y_origin := 0
        width := width
        height := height
        image_bit_depth := bit_depth
        descriptor := 0
      }
      state := .Uncompressed
      id := []
      color_map := []
      data := List.replicate (image_size width height bit_depth) 0
    }

/-- `TgaImage::from_file`, with the external file read already performed:
`buf` is the file's byte content.  Checks in source order: size at least a
header, header decode, size at least `file_size`, depth validity; then the
id, color-map and pixel regions are copied out in order using the header's
declared lengths. -/
def from_file_bytes (buf : List Nat) : Except TgaError TgaImage :=
  let size := buf.length
  if size < HEADER_SIZE then .error .InvalidSize
  else
    match TgaHeader.from_buf (buf.take HEADER_SIZE) with
    | .error e => .error e
    | .ok header =>
      if size < header.file_size then .error .InvalidSize
      else if ¬ header.image_type.valid_depth header.image_bit_depth then
        .error .InvalidPixelDepth
      else
        let id := (buf.drop HEADER_SIZE).take header.id_size
        let color_map := (buf.drop (HEADER_SIZE + header.id_size)).take header.color_map_size
        let data := (buf.drop (HEADER_SIZE + header.id_size + header.color_map_size)).take
          (image_size header.width header.height header.image_bit_depth)
        .ok { header, state := .Uncompressed, id, color_map, data }

/-- `TgaImage::set_pixel`.  Mirrors `&mut self`: the result is the post-state
paired with the `Result<(), TgaError>` value; `none` is a panic (the index
arithmetic is Rust `u16`, wrapping modulo 2^16, and the slice write
`data[start..end]` panics when the range is invalid for the buffer). -/
def set_pixel (img : TgaImage) (x y : Nat) (color : TgaColor) :
    Option (TgaImage × Except TgaError Unit) :=
  if img.header.width ≤ x ∨ img.header.height ≤ y then
    some (img, .error .InvalidCoordinate)
  else if ¬ img.header.image_type.valid_color color then
    some (img, .error .InvalidColor)
  else
    let bit_depth := color.bit_depth
    if ¬ img.header.image_type.valid_depth bit_depth ∨ bit_depth ≠ img.header.image_bit_depth then
      some (img, .error .InvalidPixelDepth)
    else
      let byte_depth := bit_depth / 8
      let start := (x + y * img.header.width % U16MOD) % U16MOD * byte_depth % U16MOD
      let stop := (start + byte_depth) % U16MOD
      if start ≤ stop ∧ stop ≤ img.data.length then
        some ({ img with
                 data := img.data.take start ++ color.as_slice ++ img.data.drop stop },
               .ok ())
      else none

/-- `buf[idx..idx+n].copy_from_slice(&src)`: `none` is the panic on an
out-of-range destination or a length mismatch. -/
def copy_into (buf : List Nat) (idx n : Nat) (src : List Nat) : Option (List Nat) :=
  if idx + n ≤ buf.length ∧ src.length = n then
    some (buf.take idx ++ src ++ buf.drop (idx + n))
  else none

/-- `TgaImage::to_file`, up to the external file write: the byte buffer the
function builds and hands to the file layer.  A zeroed buffer of
`file_size` bytes receives the encoded header, then the id, color-map and
pixel regions, contiguously. -/
def to_file_bytes (img : TgaImage) : Option (List Nat) :=
  match copy_into (List.replicate img.header.file_size 0) 0 HEADER_SIZE img.header.to_buf with
  | none => none
  | some buf =>
    match copy_into buf HEADER_SIZE img.header.id_size img.id with
    | none => none
    | some buf =>
      match copy_into buf (HEADER_SIZE + img.header.id_size) img.header.color_map_size
          img.color_map with
      | none => none
      | some buf =>
        copy_into buf (HEADER_SIZE + img.header.id_size + img.header.color_map_size)
          img.header.imageSize img.data

/-- Representation invariant maintained by every image the library
constructs: header fields within their Rust-type bounds, the
`Uncompressed` state, region lengths equal to the header's declared
sizes, and a bit depth valid for the image type. -/
def WF (img : TgaImage) : Prop :=
  img.header.WF ∧
  img.state = .Uncompressed ∧
  img.id.length = img.header.id_size ∧
  img.color_map.length = img.header.color_map_size ∧
  img.data.length = img.header.imageSize ∧
  img.header.image_type.valid_depth img.header.image_bit_depth = true

end TgaImage

/-- The images the library can hand out: built by `new` (with arguments in
the range of their Rust `u16`/`u8` types), decoded from a byte buffer, or
obtained from such an image by a `set_pixel` call, successful or not. -/
inductive Reachable : TgaImage → Prop where
  | of_new (t : TgaImageType) (w h d : Nat) (img : TgaImage) :
      w < 65536 → h < 65536 → d < 256 →
      TgaImage.new t w h d = .ok img → Reachable img
  | of_decode (bs : List Nat) (img : TgaImage) :
      (∀ b ∈ bs, b < 256) →
      TgaImage.from_file_bytes bs = .ok img → Reachable img
  | of_set_pixel (img : TgaImage) (x y : Nat) (c : TgaColor)
      (img' : TgaImage) (r : Except TgaError Unit) :
      Reachable img →
      img.set_pixel x y c = some (img', r) → Reachable img'

/-- A small concrete image used to instantiate theorems: a fresh 2×2
TrueColor 24-bit image, exactly the value `TgaImage::new` returns. -/
def sample_img : TgaImage :=
  { header := { id_size := 0, has_color_map := false, image_type := .TrueColorImage,
                color_map_first_index := 0, color_map_size := 0, color_map_bit_depth := 0,
                x_origin := 0, y_origin := 0, width := 2, height := 2,
                image_bit_depth := 24, descriptor := 0 },
    state := .Uncompressed, id := [], color_map := [],
    data := List.replicate 12 0 }

/-- A concrete header exercising every field (640×480 TrueColor, 24-bit,
with id, color-map and origin fields populated). -/
def sample_header : TgaHeader :=
  { id_size := 7, has_color_map := true, image_type := .TrueColorImage,
    color_map_first_index := 300, color_map_size := 513, color_map_bit_depth := 24,
    x_origin := 1000, y_origin := 2000, width := 640, height := 480,
    image_bit_depth := 24, descriptor := 32 }

/-- A 1-byte input, shorter than a header. -/
def buf_short : List Nat := [0]

/-- 18 bytes whose type byte (offset 2) is the unrecognized code 5. -/
def buf_badtype : List Nat := [0, 0, 5, 0, 0, 0, 0, 0, 0, 0, 0, 0, 0, 0, 0, 0, 0, 0]

/-- A valid 18-byte black-and-white 1×1 8-bit header with its 1-byte pixel
payload missing (declared file size 19). -/
def buf_truncated : List Nat := [0, 0, 3, 0, 0, 0, 0, 0, 0, 0, 0, 0, 1, 0, 1, 0, 8, 0]

/-- 18 bytes declaring a TrueColor image of bit depth 0 (invalid depth). -/
def buf_baddepth : List Nat := [0, 0, 2, 0, 0, 0, 0, 0, 0, 0, 0, 0, 0, 0, 0, 0, 0, 0]

/-- 18 zero bytes: a complete NoImage file. -/
def buf_noimage : List Nat := List.replicate 18 0

/-- The header decoded from `buf_truncated`. -/
def hdr_bw11 : TgaHeader :=
  { id_size := 0, has_color_map := false, image_type := .BlackAndWhiteImage,
    color_map_first_index := 0, color_map_size := 0, color_map_bit_depth := 0,
    x_origin := 0, y_origin := 0, width := 1, height := 1,
    image_bit_depth := 8, descriptor := 0 }

/-- The header decoded from `buf_baddepth`. -/
def hdr_tc0 : TgaHeader :=
  { id_size := 0, has_color_map := false, image_type := .TrueColorImage,
    color_map_first_index := 0, color_map_size := 0, color_map_bit_depth := 0,
    x_origin := 0, y_origin := 0, width := 0, height := 0,
    image_bit_depth := 0, descriptor := 0 }

/-- The all-zero header decoded from `buf_noimage`. -/
def hdr_zero : TgaHeader :=
  { id_size := 0, has_color_map := false, image_type := .NoImage,
    color_map_first_index := 0, color_map_size := 0, color_map_bit_depth := 0,
    x_origin := 0, y_origin := 0, width := 0, height := 0,
    image_bit_depth := 0, descriptor := 0 }

/-- The image decoded from `buf_noimage`. -/
def img_noimage : TgaImage :=
  { header := hdr_zero, state := .Uncompressed, id := [], color_map := [], data := [] }

/-- The image `new(TrueColor, 1920, 1080, 24)` returns (pixel region of
`1920*1080*3 = 6220800` zero bytes). -/
def big_img : TgaImage :=
  { header := { id_size := 0, has_color_map := false, image_type := .TrueColorImage,
                color_map_first_index := 0, color_map_size := 0, color_map_bit_depth := 0,
                x_origin := 0, y_origin := 0, width := 1920, height := 1080,
                image_bit_depth := 24, descriptor := 0 },
    state := .Uncompressed, id := [], color_map := [],
    data := List.replicate 6220800 0 }

/-- The image `set_pixel(0, 100, RGB24([1,2,3]))` actually produces from
`big_img`: the 3 payload bytes land at offset 51712 — the pixel offset
reduced modulo 2^16 by the `u16` index arithmetic — not at the
row-major offset 576000. -/
def big_img_after : TgaImage :=
  { big_img with
    data := List.replicate 51712 0 ++ [1, 2, 3] ++ List.replicate 6169085 0 }

/-! ## Helper lemmas -/

theorem TgaImageType.from_u8_toU8 (t : TgaImageType) :
    TgaImageType.from_u8 t.toU8 = .ok t := by
  cases t <;> rfl

theorem TgaColor.length_as_slice (c : TgaColor) :
    c.as_slice.length = c.byte_depth := by
  cases c <;> rfl

theorem TgaColor.bit_depth_div8 (c : TgaColor) :
    c.bit_depth / 8 = c.byte_depth := by
  cases c <;> simp [TgaColor.bit_depth, TgaColor.byte_depth]

theorem TgaHeader.from_buf_to_buf (h : TgaHeader) (hWF : h.WF) :
    TgaHeader.from_buf h.to_buf = .ok h := by
  cases h with
  | mk ids hcm it cmfi cms cmbd xo yo w ht ibd dsc =>
    simp only [TgaHeader.WF] at hWF
    obtain ⟨-, h2, h3, -, h5, h6, h7, h8, -, -⟩ := hWF
    simp only [TgaHeader.to_buf, TgaHeader.from_buf, TgaHeader.u16_from_le,
      List.getD_cons_zero, List.getD_cons_succ, TgaImageType.from_u8_toU8,
      Except.ok.injEq, TgaHeader.mk.injEq]
    and_intros <;> first
      | rfl
      | omega
      | (cases hcm <;> simp)

theorem TgaImageType.from_u8_error (v : Nat) (e : TgaError)
    (h : TgaImageType.from_u8 v = .error e) : e = .InvalidImageType := by
  unfold TgaImageType.from_u8 at h
  split at h <;> simp_all

theorem TgaHeader.from_buf_error (b : List Nat) (e : TgaError)
    (h : TgaHeader.from_buf b = .error e) : e = .InvalidImageType := by
  unfold TgaHeader.from_buf at h
  cases hfu : TgaImageType.from_u8 (b.getD 2 0) with
  | error e2 =>
    rw [hfu] at h
    simp only [Except.error.injEq] at h
    exact h ▸ TgaImageType.from_u8_error _ _ hfu
  | ok t => rw [hfu] at h; simp at h

theorem TgaHeader.to_buf_length (h : TgaHeader) : h.to_buf.length = HEADER_SIZE := rfl

theorem TgaColor.byte_depth_pos (c : TgaColor) : 1 ≤ c.byte_depth := by
  cases c <;> simp [TgaColor.byte_depth]

theorem TgaColor.byte_depth_le (c : TgaColor) : c.byte_depth ≤ 4 := by
  cases c <;> simp [TgaColor.byte_depth]

theorem getD_byte_bound (l : List Nat) (i : Nat) (hb : ∀ b ∈ l, b < 256) :
    l.getD i 0 < 256 := by
  rw [List.getD_eq_getElem?_getD]
  cases hl : l[i]? with
  | none => simp
  | some v => simpa using hb v (List.getElem?_mem hl)

theorem TgaHeader.from_buf_WF (buf : List Nat) (hd : TgaHeader)
    (hb : ∀ b ∈ buf, b < 256) (h : TgaHeader.from_buf buf = .ok hd) : hd.WF := by
  unfold TgaHeader.from_buf at h
  cases hfu : TgaImageType.from_u8 (buf.getD 2 0) with
  | error e => rw [hfu] at h; simp at h
  | ok t =>
    rw [hfu] at h
    simp only [Except.ok.injEq] at h
    subst h
    have g0 := getD_byte_bound buf 0 hb
    have g3 := getD_byte_bound buf 3 hb
    have g4 := getD_byte_bound buf 4 hb
    have g5 := getD_byte_bound buf 5 hb
    have g6 := getD_byte_bound buf 6 hb
    have g7 := getD_byte_bound buf 7 hb
    have g8 := getD_byte_bound buf 8 hb
    have g9 := getD_byte_bound buf 9 hb
    have g10 := getD_byte_bound buf 10 hb
    have g11 := getD_byte_bound buf 11 hb
    have g12 := getD_byte_bound buf 12 hb
    have g13 := getD_byte_bound buf 13 hb
    have g14 := getD_byte_bound buf 14 hb
    have g15 := getD_byte_bound buf 15 hb
    have g16 := getD_byte_bound buf 16 hb
    have g17 := getD_byte_bound buf 17 hb
    unfold TgaHeader.WF TgaHeader.u16_from_le
    dsimp only
    refine ⟨g0, by omega, by omega, g7, by omega, by omega, by omega, by omega, g16, g17⟩

theorem TgaImage.new_WF (t : TgaImageType) (w h d : Nat) (img : TgaImage)
    (hw : w < 65536) (hh : h < 65536) (hd : d < 256)
    (hnew : TgaImage.new t w h d = .ok img) : img.WF := by
  unfold TgaImage.new at hnew
  split at hnew
  · simp at hnew
  · rename_i hv
    simp only [Except.ok.injEq] at hnew
    subst hnew
    unfold TgaImage.WF TgaHeader.WF TgaHeader.imageSize
    simp only [List.length_replicate, List.length_nil]
    refine ⟨⟨by omega, by omega, by omega, by omega, by omega, by omega, hw, hh, hd,
      by omega⟩, by trivial, by trivial, by trivial, by trivial, ?_⟩
    simpa using hv

theorem TgaImage.from_file_bytes_WF (bs : List Nat) (img : TgaImage)
    (hb : ∀ b ∈ bs, b < 256) (h : TgaImage.from_file_bytes bs = .ok img) : img.WF := by
  unfold TgaImage.from_file_bytes at h
  simp only [] at h
  split at h
  · simp at h
  · rename_i h18
    cases hfb : TgaHeader.from_buf (bs.take HEADER_SIZE) with
    | error e => rw [hfb] at h; simp at h
    | ok hd =>
      rw [hfb] at h
      simp only [] at h
      split at h
      · simp at h
      · split at h
        · simp at h
        · rename_i hsz hdep
          obtain rfl : _ = img := by simpa using h
          have hdWF : hd.WF :=
            TgaHeader.from_buf_WF _ hd (fun b hbm => hb b (List.take_subset _ _ hbm)) hfb
          have hlen : HEADER_SIZE + hd.id_size + hd.color_map_size +
              image_size hd.width hd.height hd.image_bit_depth ≤ bs.length := by
            have hsz' := hsz
            unfold TgaHeader.file_size TgaHeader.imageSize at hsz'
            omega
          refine ⟨hdWF, rfl, ?_, ?_, ?_, by simpa using hdep⟩ <;>
            simp only [List.length_take, List.length_drop, TgaHeader.imageSize] <;>
            omega

theorem TgaImage.set_pixel_WF (img img' : TgaImage) (x y : Nat) (c : TgaColor)
    (r : Except TgaError Unit) (hWF : img.WF)
    (h : img.set_pixel x y c = some (img', r)) : img'.WF := by
  obtain ⟨hhdr, hst, hid, hcm, hdata, hdep⟩ := hWF
  unfold TgaImage.set_pixel at h
  simp only [] at h
  split_ifs at h with h1 h2 h3 h4 <;>
    simp only [Option.some.injEq, Prod.mk.injEq] at h <;>
    obtain ⟨himg, -⟩ := h <;>
    subst himg
  all_goals try exact ⟨hhdr, hst, hid, hcm, hdata, hdep⟩
  -- successful write: only `data` changes, and its length is preserved
  unfold TgaImage.WF
  dsimp only
  refine ⟨hhdr, hst, hid, hcm, ?_, hdep⟩
  simp only [List.length_append, List.length_take, List.length_drop,
    TgaColor.length_as_slice]
  have hb1 := c.byte_depth_pos
  have hb4 := c.byte_depth_le
  have hdiv := c.bit_depth_div8
  rw [hdiv] at h4 ⊢
  unfold U16MOD at h4 ⊢
  omega

theorem copy_into_append (P Q src : List Nat) (n : Nat)
    (hsrc : src.length = n) (hn : n ≤ Q.length) :
    TgaImage.copy_into (P ++ Q) P.length n src = some (P ++ (src ++ Q.drop n)) := by
  unfold TgaImage.copy_into
  rw [if_pos ⟨by simp only [List.length_append]; omega, hsrc⟩]
  have hdrop : (P ++ Q).drop (P.length + n) = Q.drop n := by
    rw [← List.drop_drop, List.drop_left]
  rw [List.take_left, hdrop, List.append_assoc]

theorem TgaImage.to_file_bytes_eq (img : TgaImage) (hWF : img.WF) :
    img.to_file_bytes =
      some (img.header.to_buf ++ (img.id ++ (img.color_map ++ img.data))) := by
  obtain ⟨hhdr, hst, hid, hcm, hdata, hdep⟩ := hWF
  have hfs : img.header.file_size =
      HEADER_SIZE + img.header.id_size + img.header.color_map_size + img.header.imageSize :=
    rfl
  unfold TgaImage.to_file_bytes
  have s1 : TgaImage.copy_into (List.replicate img.header.file_size 0) 0 HEADER_SIZE
      img.header.to_buf =
      some (img.header.to_buf ++
        List.replicate (img.header.file_size - HEADER_SIZE) 0) := by
    have hc := copy_into_append [] (List.replicate img.header.file_size 0)
      img.header.to_buf HEADER_SIZE (TgaHeader.to_buf_length _)
      (by simp only [List.length_replicate]; omega)
    simpa [List.drop_replicate] using hc
  have s2 : TgaImage.copy_into
      (img.header.to_buf ++ List.replicate (img.header.file_size - HEADER_SIZE) 0)
      HEADER_SIZE img.header.id_size img.id =
      some (img.header.to_buf ++ (img.id ++
        List.replicate (img.header.file_size - HEADER_SIZE - img.header.id_size) 0)) := by
    have hc := copy_into_append img.header.to_buf
      (List.replicate (img.header.file_size - HEADER_SIZE) 0)
      img.id img.header.id_size hid
      (by simp only [List.length_replicate]; omega)
    simpa [TgaHeader.to_buf_length, List.drop_replicate, Nat.sub_sub] using hc
  have s3 : TgaImage.copy_into
      (img.header.to_buf ++ (img.id ++
        List.replicate (img.header.file_size - HEADER_SIZE - img.header.id_size) 0))
      (HEADER_SIZE + img.header.id_size) img.header.color_map_size img.color_map =
      some (img.header.to_buf ++ (img.id ++ (img.color_map ++
        List.replicate img.header.imageSize 0))) := by
    have hc := copy_into_append (img.header.to_buf ++ img.id)
      (List.replicate (img.header.file_size - HEADER_SIZE - img.header.id_size) 0)
      img.color_map img.header.color_map_size hcm
      (by simp only [List.length_replicate]; omega)
    have hrem : img.header.file_size - HEADER_SIZE - img.header.id_size -
        img.header.color_map_size = img.header.imageSize := by
      rw [hfs]; omega
    simpa [TgaHeader.to_buf_length, hid, List.drop_replicate, Nat.sub_sub,
      List.append_assoc, hfs] using hc
  have s4 : TgaImage.copy_into
      (img.header.to_buf ++ (img.id ++ (img.color_map ++
        List.replicate img.header.imageSize 0)))
      (HEADER_SIZE + img.header.id_size + img.header.color_map_size)
      img.header.imageSize img.data =
      some (img.header.to_buf ++ (img.id ++ (img.color_map ++ img.data))) := by
    have hc := copy_into_append (img.header.to_buf ++ img.id ++ img.color_map)
      (List.replicate img.header.imageSize 0)
      img.data img.header.imageSize hdata
      (by simp only [List.length_replicate]; omega)
    simpa [TgaHeader.to_buf_length, hid, hcm, List.drop_replicate,
      List.append_assoc, ← Nat.add_assoc] using hc
  simp only [s1, s2, s3, s4]

theorem TgaImage.from_file_bytes_concat (img : TgaImage) (hWF : img.WF) :
    TgaImage.from_file_bytes
      (img.header.to_buf ++ (img.id ++ (img.color_map ++ img.data))) = .ok img := by
  obtain ⟨hhdr, hst, hid, hcm, hdata, hdep⟩ := hWF
  have hlen : (img.header.to_buf ++ (img.id ++ (img.color_map ++ img.data))).length =
      img.header.file_size := by
    simp only [List.length_append, TgaHeader.to_buf_length, hid, hcm, hdata]
    unfold TgaHeader.file_size
    omega
  have htake : (img.header.to_buf ++ (img.id ++ (img.color_map ++ img.data))).take
      HEADER_SIZE = img.header.to_buf := by
    rw [← TgaHeader.to_buf_length img.header, List.take_left]
  have hdrop18 : (img.header.to_buf ++ (img.id ++ (img.color_map ++ img.data))).drop
      HEADER_SIZE = img.id ++ (img.color_map ++ img.data) := by
    rw [← TgaHeader.to_buf_length img.header, List.drop_left]
  have hdropid : (img.header.to_buf ++ (img.id ++ (img.color_map ++ img.data))).drop
      (HEADER_SIZE + img.header.id_size) = img.color_map ++ img.data := by
    rw [← List.drop_drop, hdrop18, ← hid, List.drop_left]
  have hdropcm : (img.header.to_buf ++ (img.id ++ (img.color_map ++ img.data))).drop
      (HEADER_SIZE + img.header.id_size + img.header.color_map_size) = img.data := by
    rw [← List.drop_drop, hdropid, ← hcm, List.drop_left]
  have hfs18 : ¬ img.header.file_size < HEADER_SIZE := by
    unfold TgaHeader.file_size HEADER_SIZE
    omega
  have htakeid : (img.id ++ (img.color_map ++ img.data)).take img.header.id_size =
      img.id := by
    rw [← hid]; exact List.take_left ..
  have htakecm : (img.color_map ++ img.data).take img.header.color_map_size =
      img.color_map := by
    rw [← hcm]; exact List.take_left ..
  have hdata' : img.data.take (image_size img.header.width img.header.height
      img.header.image_bit_depth) = img.data := by
    have he : image_size img.header.width img.header.height img.header.image_bit_depth =
        img.data.length := by rw [hdata]; rfl
    rw [he, List.take_length]
  unfold TgaImage.from_file_bytes
  simp only [hlen, htake, TgaHeader.from_buf_to_buf img.header hhdr]
  rw [if_neg hfs18, if_neg (Nat.lt_irrefl _), if_neg (not_not_intro hdep)]
  simp only [Except.ok.injEq]
  rw [hdrop18, htakeid, hdropid, htakecm, hdropcm, hdata', ← hst]

theorem Reachable_WF (img : TgaImage) (h : Reachable img) : img.WF := by
  induction h with
  | of_new t w hh d img hw hh2 hd hnew => exact TgaImage.new_WF t w hh d img hw hh2 hd hnew
  | of_decode bs img hb hdec => exact TgaImage.from_file_bytes_WF bs img hb hdec
  | of_set_pixel img x y c img' r hre hsp ih =>
    exact TgaImage.set_pixel_WF img img' x y c r ih hsp

/-! ## Claim theorems -/

/-- C8: `valid_color` and `valid_depth` implement the compatibility matrix
exactly: Greyscale colors only for the two black-and-white types, the three
non-Greyscale variants only for the four color types, nothing for NoImage;
depths {16,24,32} for the color types, exactly 8 for black-and-white,
exactly 0 for NoImage. -/
theorem C8_validation_matrix (t : TgaImageType) (c : TgaColor) (d : Nat) :
    (t.valid_color c = true ↔
      ((∃ b, c = .Greyscale b) ∧
        (t = .BlackAndWhiteImage ∨ t = .RleBlackAndWhiteImage)) ∨
      ((¬ ∃ b, c = .Greyscale b) ∧
        (t = .ColorMappedImage ∨ t = .TrueColorImage ∨
         t = .RleColorMappedImage ∨ t = .RleTrueColorImage))) ∧
    (t.valid_depth d = true ↔
      ((t = .ColorMappedImage ∨ t = .TrueColorImage ∨
        t = .RleColorMappedImage ∨ t = .RleTrueColorImage) ∧
        (d = 16 ∨ d = 24 ∨ d = 32)) ∨
      ((t = .BlackAndWhiteImage ∨ t = .RleBlackAndWhiteImage) ∧ d = 8) ∨
      (t = .NoImage ∧ d = 0)) := by
  constructor
  · cases t <;> cases c <;> simp [TgaImageType.valid_color]
  · cases t <;> simp [TgaImageType.valid_depth] <;> omega

/-- C7: `new` fails with `InvalidPixelDepth` exactly when the depth is
invalid for the type; on success the header has zeroed id/color-map/origin
and descriptor fields and the pixel region is `width*height*(bit_depth/8)`
zero bytes; in particular `new(TrueColor, w, h, 24)` always succeeds with
`w*h*3` zero bytes. -/
theorem C7_new (t : TgaImageType) (w h d : Nat) :
    (TgaImage.new t w h d =
      if t.valid_depth d then
        .ok { header := { id_size := 0, has_color_map := false, image_type := t,
                          color_map_first_index := 0, color_map_size := 0,
                          color_map_bit_depth := 0, x_origin := 0, y_origin := 0,
                          width := w, height := h, image_bit_depth := d, descriptor := 0 },
              state := .Uncompressed, id := [], color_map := [],
              data := List.replicate (w * h * (d / 8)) 0 }
      else .error .InvalidPixelDepth) ∧
    TgaImage.new .TrueColorImage w h 24 =
      .ok { header := { id_size := 0, has_color_map := false,
                        image_type := .TrueColorImage,
                        color_map_first_index := 0, color_map_size := 0,
                        color_map_bit_depth := 0, x_origin := 0, y_origin := 0,
                        width := w, height := h, image_bit_depth := 24, descriptor := 0 },
            state := .Uncompressed, id := [], color_map := [],
            data := List.replicate (w * h * 3) 0 } := by
  constructor
  · by_cases hv : t.valid_depth d <;> simp [TgaImage.new, image_size, hv]
  · simp [TgaImage.new, image_size, TgaImageType.valid_depth]

/-- C5: `set_pixel` checks its preconditions in order: out-of-range
coordinates give `InvalidCoordinate`; then an invalid color kind gives
`InvalidColor`; then an invalid or mismatching color depth gives
`InvalidPixelDepth`. -/
theorem C5_set_pixel_check_order (img : TgaImage) (x y : Nat) (c : TgaColor) :
    ((img.header.width ≤ x ∨ img.header.height ≤ y) →
      img.set_pixel x y c = some (img, .error .InvalidCoordinate)) ∧
    (x < img.header.width → y < img.header.height →
      ¬ img.header.image_type.valid_color c →
      img.set_pixel x y c = some (img, .error .InvalidColor)) ∧
    (x < img.header.width → y < img.header.height →
      img.header.image_type.valid_color c →
      (¬ img.header.image_type.valid_depth c.bit_depth ∨
        c.bit_depth ≠ img.header.image_bit_depth) →
      img.set_pixel x y c = some (img, .error .InvalidPixelDepth)) := by
  refine ⟨fun hco => ?_, fun hx hy hcol => ?_, fun hx hy hcol hd => ?_⟩
  · simp [TgaImage.set_pixel, hco]
  · have hco : ¬ (img.header.width ≤ x ∨ img.header.height ≤ y) := by omega
    simp [TgaImage.set_pixel, hco, hcol]
  · have hco : ¬ (img.header.width ≤ x ∨ img.header.height ≤ y) := by omega
    simp [TgaImage.set_pixel, hco, hcol]
    tauto

/-- C5 witness: the three error cases at concrete inputs on a 2×2
TrueColor 24-bit image. -/
theorem C5_set_pixel_check_order_witness :
    sample_img.set_pixel 2 0 (.RGB24 1 2 3) =
      some (sample_img, .error .InvalidCoordinate) ∧
    sample_img.set_pixel 0 0 (.Greyscale 7) =
      some (sample_img, .error .InvalidColor) ∧
    sample_img.set_pixel 0 0 (.RGB16 1 2) =
      some (sample_img, .error .InvalidPixelDepth) :=
  ⟨(C5_set_pixel_check_order sample_img 2 0 (.RGB24 1 2 3)).1 (Or.inl (by decide)),
   (C5_set_pixel_check_order sample_img 0 0 (.Greyscale 7)).2.1
     (by decide) (by decide) (by decide),
   (C5_set_pixel_check_order sample_img 0 0 (.RGB16 1 2)).2.2
     (by decide) (by decide) (by decide) (Or.inr (by decide))⟩

/-- C6: whenever `set_pixel` returns an error, the image (header and all
three byte regions) is exactly the pre-call image. -/
theorem C6_no_partial_mutation (img : TgaImage) (x y : Nat) (c : TgaColor)
    (img' : TgaImage) (e : TgaError)
    (hres : img.set_pixel x y c = some (img', .error e)) : img' = img := by
  unfold TgaImage.set_pixel at hres
  simp only [] at hres
  split_ifs at hres with h1 h2 h3 h4 <;>
    first
      | (simp only [Option.some.injEq, Prod.mk.injEq] at hres; exact hres.1.symm)
      | simp at hres

/-- C6 witness: a failed write at out-of-range coordinates leaves the
sample image unchanged. -/
theorem C6_no_partial_mutation_witness :
    sample_img.set_pixel 9 9 (.RGB24 0 0 255) =
      some (sample_img, .error .InvalidCoordinate) ∧ sample_img = sample_img :=
  ⟨by rfl,
   C6_no_partial_mutation sample_img 9 9 (.RGB24 0 0 255) sample_img
     .InvalidCoordinate (by rfl)⟩

/-- C3: for every well-formed header (fields within the bounds of their
`u8`/`u16` Rust types; the image type is one of the seven enumerated
values by construction), decoding the 18-byte encoding yields the header
back: `from_buf (to_buf h) = Ok(h)`. -/
theorem C3_header_roundtrip (h : TgaHeader) (hWF : h.WF) :
    TgaHeader.from_buf h.to_buf = .ok h :=
  TgaHeader.from_buf_to_buf h hWF

/-- C3 witness: the round-trip at a concrete header with every field
populated. -/
theorem C3_header_roundtrip_witness :
    sample_header.WF ∧ TgaHeader.from_buf sample_header.to_buf = .ok sample_header :=
  ⟨by decide, C3_header_roundtrip sample_header (by decide)⟩

/-- C2: `from_file_bytes` performs its checks in source order,
short-circuiting on the first failure: `InvalidSize` below 18 bytes; then
header decode propagating `InvalidImageType` (its only error); then
`InvalidSize` below the header's declared `file_size`; then
`InvalidPixelDepth` on an invalid depth; otherwise success, copying the
id, color-map and pixel regions in that order with the header's declared
lengths. -/
theorem C2_decode_file_checks (buf : List Nat) :
    (buf.length < HEADER_SIZE → TgaImage.from_file_bytes buf = .error .InvalidSize) ∧
    (∀ e, ¬ buf.length < HEADER_SIZE →
      TgaHeader.from_buf (buf.take HEADER_SIZE) = .error e →
      e = .InvalidImageType ∧ TgaImage.from_file_bytes buf = .error e) ∧
    (∀ h, ¬ buf.length < HEADER_SIZE →
      TgaHeader.from_buf (buf.take HEADER_SIZE) = .ok h →
      buf.length < h.file_size →
      TgaImage.from_file_bytes buf = .error .InvalidSize) ∧
    (∀ h, ¬ buf.length < HEADER_SIZE →
      TgaHeader.from_buf (buf.take HEADER_SIZE) = .ok h →
      ¬ buf.length < h.file_size →
      ¬ h.image_type.valid_depth h.image_bit_depth →
      TgaImage.from_file_bytes buf = .error .InvalidPixelDepth) ∧
    (∀ h, ¬ buf.length < HEADER_SIZE →
      TgaHeader.from_buf (buf.take HEADER_SIZE) = .ok h →
      ¬ buf.length < h.file_size →
      h.image_type.valid_depth h.image_bit_depth →
      TgaImage.from_file_bytes buf =
        .ok { header := h, state := .Uncompressed,
              id := (buf.drop HEADER_SIZE).take h.id_size,
              color_map := (buf.drop (HEADER_SIZE + h.id_size)).take h.color_map_size,
              data := (buf.drop (HEADER_SIZE + h.id_size + h.color_map_size)).take
                h.imageSize }) := by
  refine ⟨fun hlt => ?_, fun e h18 hfb => ?_, fun h h18 hfb hsz => ?_,
    fun h h18 hfb hsz hdep => ?_, fun h h18 hfb hsz hdep => ?_⟩
  · simp [TgaImage.from_file_bytes, hlt]
  · exact ⟨TgaHeader.from_buf_error _ _ hfb, by simp [TgaImage.from_file_bytes, h18, hfb]⟩
  · simp [TgaImage.from_file_bytes, h18, hfb, hsz]
  · simp [TgaImage.from_file_bytes, h18, hfb, hsz, hdep]
  · simp [TgaImage.from_file_bytes, h18, hfb, hsz, hdep, TgaHeader.imageSize]

/-- C2 witness: one concrete input per branch — a 1-byte file, an
unrecognized type code, a truncated payload, an invalid bit depth, and a
complete NoImage file. -/
theorem C2_decode_file_checks_witness :
    TgaImage.from_file_bytes buf_short = .error .InvalidSize ∧
    TgaImage.from_file_bytes buf_badtype = .error .InvalidImageType ∧
    TgaImage.from_file_bytes buf_truncated = .error .InvalidSize ∧
    TgaImage.from_file_bytes buf_baddepth = .error .InvalidPixelDepth ∧
    TgaImage.from_file_bytes buf_noimage = .ok img_noimage :=
  ⟨(C2_decode_file_checks buf_short).1 (by decide),
   ((C2_decode_file_checks buf_badtype).2.1 .InvalidImageType (by decide) (by rfl)).2,
   (C2_decode_file_checks buf_truncated).2.2.1 hdr_bw11 (by decide) (by rfl) (by decide),
   (C2_decode_file_checks buf_baddepth).2.2.2.1 hdr_tc0 (by decide) (by rfl)
     (by decide) (by decide),
   (C2_decode_file_checks buf_noimage).2.2.2.2 hdr_zero (by decide) (by rfl)
     (by decide) (by decide)⟩

/-- C9: `image_size` is `width * height * (bit_depth / 8)` with truncating
division, and `file_size` is `18 + id_size + color_map_size + image_size`,
where `color_map_size` is exactly the byte length of the color-map region
of any decoded image. -/
theorem C9_sizes :
    (∀ hd : TgaHeader,
      hd.imageSize = hd.width * hd.height * (hd.image_bit_depth / 8) ∧
      hd.file_size = 18 + hd.id_size + hd.color_map_size + hd.imageSize) ∧
    (∀ (bs : List Nat) (img : TgaImage), TgaImage.from_file_bytes bs = .ok img →
      img.color_map.length = img.header.color_map_size) := by
  refine ⟨fun hd => ⟨rfl, rfl⟩, fun bs img h => ?_⟩
  unfold TgaImage.from_file_bytes at h
  simp only [] at h
  split at h
  · exact absurd h (by simp)
  · rename_i h18
    cases hfb : TgaHeader.from_buf (bs.take HEADER_SIZE) with
    | error e => rw [hfb] at h; simp at h
    | ok hd =>
      rw [hfb] at h
      simp only [] at h
      split at h
      · exact absurd h (by simp)
      · split at h
        · exact absurd h (by simp)
        · rename_i hsz hdep
          obtain rfl : _ = img := by simpa using h
          simp only [List.length_take, List.length_drop]
          unfold TgaHeader.file_size at hsz
          omega

/-- C4: for every image produced by `new` or `from_file_bytes`, possibly
followed by `set_pixel` calls, encoding with `to_file_bytes` succeeds and
decoding the resulting bytes with `from_file_bytes` yields the image back,
header and id/color-map/pixel regions identical. -/
theorem C4_file_roundtrip (img : TgaImage) (hre : Reachable img) :
    ∃ bs, img.to_file_bytes = some bs ∧ TgaImage.from_file_bytes bs = .ok img :=
  ⟨_, TgaImage.to_file_bytes_eq img (Reachable_WF img hre),
    TgaImage.from_file_bytes_concat img (Reachable_WF img hre)⟩

/-- C4 witness: the file round-trip on the image `new(TrueColor, 2, 2, 24)`
returns. -/
theorem C4_file_roundtrip_witness :
    TgaImage.new .TrueColorImage 2 2 24 = .ok sample_img ∧
    ∃ bs, sample_img.to_file_bytes = some bs ∧
      TgaImage.from_file_bytes bs = .ok sample_img :=
  ⟨by rfl,
   C4_file_roundtrip sample_img
     (Reachable.of_new .TrueColorImage 2 2 24 sample_img (by decide) (by decide)
       (by decide) (by rfl))⟩

/-- C9 witness: the size equations and the color-map region length on the
decoded NoImage file. -/
theorem C9_sizes_witness :
    TgaImage.from_file_bytes buf_noimage = .ok img_noimage ∧
    img_noimage.color_map.length = img_noimage.header.color_map_size :=
  ⟨by rfl, C9_sizes.2 buf_noimage img_noimage (by rfl)⟩

/-- C1 (refuting evaluation): on the image `new(TrueColor, 1920, 1080, 24)`
returns, `set_pixel(0, 100, RGB24([1,2,3]))` passes every check and
succeeds, but the write does not land at the claimed byte offset
`(x + y*width)*byte_depth = 576000`: the index arithmetic is Rust `u16`,
so the payload is written at `576000 % 65536 = 51712` instead — the byte
at offset 576000 stays 0 while the byte at offset 51712 becomes 1. -/
theorem C1_set_pixel_offset_bug :
    TgaImage.new .TrueColorImage 1920 1080 24 = .ok big_img ∧
    big_img.set_pixel 0 100 (.RGB24 1 2 3) = some (big_img_after, .ok ()) ∧
    (0 + 100 * 1920) * 3 = 576000 ∧
    big_img_after.data.getD 576000 0 = 0 ∧
    big_img_after.data.getD 51712 0 = 1 := by
  have hlen : big_img.data.length = 6220800 := List.length_replicate ..
  refine ⟨?_, ?_, by norm_num, ?_, ?_⟩
  · rfl
  · simp only [TgaImage.set_pixel]
    rw [if_neg (by decide : ¬ (big_img.header.width ≤ 0 ∨ big_img.header.height ≤ 100)),
      if_neg (by decide :
        ¬ ¬ big_img.header.image_type.valid_color (.RGB24 1 2 3) = true),
      if_neg (by decide :
        ¬ (¬ big_img.header.image_type.valid_depth (TgaColor.RGB24 1 2 3).bit_depth = true ∨
          (TgaColor.RGB24 1 2 3).bit_depth ≠ big_img.header.image_bit_depth)),
      if_pos (by rw [hlen]; constructor <;>
        norm_num [big_img, U16MOD, TgaColor.bit_depth, TgaColor.byte_depth])]
    have hS : (0 + 100 * big_img.header.width % U16MOD) % U16MOD *
        ((TgaColor.RGB24 1 2 3).bit_depth / 8) % U16MOD = 51712 := by
      norm_num [big_img, U16MOD, TgaColor.bit_depth, TgaColor.byte_depth]
    rw [hS]
    have hE : (51712 + (TgaColor.RGB24 1 2 3).bit_depth / 8) % U16MOD = 51715 := by
      norm_num [U16MOD, TgaColor.bit_depth, TgaColor.byte_depth]
    rw [hE]
    have hsl : (TgaColor.RGB24 1 2 3).as_slice = [1, 2, 3] := rfl
    rw [hsl]
    have hdata : big_img.data.take 51712 ++ [1, 2, 3] ++ big_img.data.drop 51715 =
        big_img_after.data := by
      show (List.replicate 6220800 (0:Nat)).take 51712 ++ [1, 2, 3] ++
        (List.replicate 6220800 (0:Nat)).drop 51715 =
        List.replicate 51712 (0:Nat) ++ [1, 2, 3] ++ List.replicate 6169085 0
      rw [List.take_replicate, Nat.min_eq_left (by norm_num), List.drop_replicate]
    rw [hdata]
    rfl
  · show (List.replicate 51712 (0:Nat) ++ [1, 2, 3] ++
      List.replicate 6169085 0).getD 576000 0 = 0
    rw [List.append_assoc,
      List.getD_append_right (List.replicate 51712 0) _ 0 576000
        (by rw [List.length_replicate]; norm_num),
      List.length_replicate,
      show (576000 - 51712 : Nat) = 524288 from by norm_num,
      List.getD_append_right [1, 2, 3] _ 0 524288 (by norm_num),
      show ((524288 : Nat) - ([1, 2, 3] : List Nat).length) = 524285 from by norm_num,
      List.getD_eq_getElem?_getD, List.getElem?_replicate,
      if_pos (by norm_num : (524285 : Nat) < 6169085)]
    rfl
  · show (List.replicate 51712 (0:Nat) ++ [1, 2, 3] ++
      List.replicate 6169085 0).getD 51712 0 = 1
    rw [List.append_assoc,
      List.getD_append_right (List.replicate 51712 0) _ 0 51712
        (by rw [List.length_replicate]),
      List.length_replicate,
      show (51712 - 51712 : Nat) = 0 from by norm_num]
    rfl

/-- C10: decoding any 18-byte buffer whose type byte (offset 2) is one of
the seven recognized codes succeeds, and re-encoding the decoded header
reproduces the buffer byte-for-byte except offset 1 (`has_color_map`),
which is normalized to 1 when nonzero; the re-encoding equals the input
exactly when byte 1 is 0 or 1. -/
theorem C10_decode_encode_normalization
    (b0 b1 b2 b3 b4 b5 b6 b7 b8 b9 b10 b11 b12 b13 b14 b15 b16 b17 : Nat)
    (hb : b0 < 256 ∧ b1 < 256 ∧ b2 < 256 ∧ b3 < 256 ∧ b4 < 256 ∧ b5 < 256 ∧
      b6 < 256 ∧ b7 < 256 ∧ b8 < 256 ∧ b9 < 256 ∧ b10 < 256 ∧ b11 < 256 ∧
      b12 < 256 ∧ b13 < 256 ∧ b14 < 256 ∧ b15 < 256 ∧ b16 < 256 ∧ b17 < 256)
    (ht : b2 = 0 ∨ b2 = 1 ∨ b2 = 2 ∨ b2 = 3 ∨ b2 = 9 ∨ b2 = 10 ∨ b2 = 11) :
    ∃ h, TgaHeader.from_buf
        [b0, b1, b2, b3, b4, b5, b6, b7, b8, b9, b10, b11, b12, b13, b14, b15,
         b16, b17] = .ok h ∧
      h.to_buf = [b0, if b1 = 0 then 0 else 1, b2, b3, b4, b5, b6, b7, b8, b9,
        b10, b11, b12, b13, b14, b15, b16, b17] ∧
      (h.to_buf = [b0, b1, b2, b3, b4, b5, b6, b7, b8, b9, b10, b11, b12, b13,
        b14, b15, b16, b17] ↔ b1 < 2) := by
  obtain ⟨g0, g1, g2, g3, g4, g5, g6, g7, g8, g9, g10, g11, g12, g13, g14, g15,
    g16, g17⟩ := hb
  have e3 : (b3 + 256 * b4) % 256 = b3 := by omega
  have e4 : (b3 + 256 * b4) / 256 % 256 = b4 := by omega
  have e5 : (b5 + 256 * b6) % 256 = b5 := by omega
  have e6 : (b5 + 256 * b6) / 256 % 256 = b6 := by omega
  have e8 : (b8 + 256 * b9) % 256 = b8 := by omega
  have e9 : (b8 + 256 * b9) / 256 % 256 = b9 := by omega
  have e10 : (b10 + 256 * b11) % 256 = b10 := by omega
  have e11 : (b10 + 256 * b11) / 256 % 256 = b11 := by omega
  have e12 : (b12 + 256 * b13) % 256 = b12 := by omega
  have e13 : (b12 + 256 * b13) / 256 % 256 = b13 := by omega
  have e14 : (b14 + 256 * b15) % 256 = b14 := by omega
  have e15 : (b14 + 256 * b15) / 256 % 256 = b15 := by omega
  rcases ht with rfl | rfl | rfl | rfl | rfl | rfl | rfl <;>
    refine ⟨_, rfl, ?_, ?_⟩ <;>
    simp only [TgaHeader.to_buf, TgaHeader.from_buf, TgaImageType.from_u8,
      TgaImageType.toU8, TgaHeader.u16_from_le, List.getD_cons_zero,
      List.getD_cons_succ, e3, e4, e5, e6, e8, e9, e10, e11, e12, e13, e14, e15,
      List.cons.injEq, and_true, true_and, bne_iff_ne] <;>
    split_ifs with hb1 <;>
    simp_all <;>
    omega

/-- C10 witness: a concrete buffer with `b[1] = 7`, whose re-encoding
normalizes offset 1 to 1 and therefore differs from the input. -/
theorem C10_decode_encode_normalization_witness :
    ∃ h, TgaHeader.from_buf
        [1, 7, 2, 44, 1, 0, 2, 16, 10, 0, 20, 0, 128, 7, 200, 1, 24, 9] = .ok h ∧
      h.to_buf = [1, if (7:Nat) = 0 then 0 else 1, 2, 44, 1, 0, 2, 16, 10, 0, 20,
        0, 128, 7, 200, 1, 24, 9] ∧
      (h.to_buf = [1, 7, 2, 44, 1, 0, 2, 16, 10, 0, 20, 0, 128, 7, 200, 1, 24, 9] ↔
        (7:Nat) < 2) :=
  C10_decode_encode_normalization 1 7 2 44 1 0 2 16 10 0 20 0 128 7 200 1 24 9
    (by omega) (by omega)

end Rtga
